import Mathlib

/-!
Shallow embedding of `src/main.py` (a Flask adapter over the WBuy orders
API) and proofs about its behaviour.

Upstream JSON values are modelled by the inductive type `J`.  The outbound
HTTP GET against the `/order` list endpoint is abstracted as an oracle
`Fetch : Params → J × Nat` returning the parsed response body and the HTTP
status code (the code parses the body regardless of status, and maps an
empty/unparsable body to `{}`); the `/order/{id}` detail endpoint is a
second oracle `String → J × Nat`.  Every function below is a direct
translation of the corresponding Python function; handler results carry a
trace of the upstream requests issued, in order, so that claims about
"no upstream call" are statable.

Modelling conventions, stated once here:
* Python `str.upper`, `str.isdigit` and `str.strip` are modelled on their
  ASCII behaviour (tracking codes, numeric ids and dates are ASCII).
* Python raises `AttributeError` on `x.get(...)` when `x` is not a dict,
  and `TypeError` on inserting an unhashable value into a set; the Lean
  functions are total, and theorems about record construction therefore
  restrict inputs with the predicate `rowSafe`, under which the Python
  code raises nothing and the translation is exact.
-/

/-- JSON values as produced by `requests.Response.json()`: null, booleans,
numbers (integral; no modelled code path does arithmetic on numbers),
strings, arrays, and objects as key/value lists with distinct keys. -/
inductive J where
  | jnull : J
  | jbool : Bool → J
  | jint  : Int → J
  | jstr  : String → J
  | jlist : List J → J
  | jdict : List (String × J) → J

open J

mutual

/-- Structural equality on `J`, mirroring Python `==` on parsed JSON
trees (dict comparison is keywise; parsed JSON objects have unique keys
and `json` preserves document order, so list comparison of pairs agrees
with Python dict equality for the inputs the program sees). -/
def jeq : J → J → Bool
  | jnull, jnull => true
  | jbool a, jbool b => a == b
  | jint a, jint b => a == b
  | jstr a, jstr b => a == b
  | jlist as_, jlist bs => jeqList as_ bs
  | jdict ps, jdict qs => jeqDict ps qs
  | _, _ => false

/-- Elementwise equality of JSON arrays. -/
def jeqList : List J → List J → Bool
  | [], [] => true
  | a :: as_, b :: bs => jeq a b && jeqList as_ bs
  | _, _ => false

/-- Pairwise equality of JSON object entries. -/
def jeqDict : List (String × J) → List (String × J) → Bool
  | [], [] => true
  | (k, v) :: ps, (l, w) :: qs => k == l && jeq v w && jeqDict ps qs
  | _, _ => false

end

mutual

theorem jeq_refl : (a : J) → jeq a a = true
  | jnull => by simp [jeq]
  | jbool a => by simp [jeq]
  | jint a => by simp [jeq]
  | jstr a => by simp [jeq]
  | jlist as_ => by simp [jeq, jeqList_refl as_]
  | jdict ps => by simp [jeq, jeqDict_refl ps]

theorem jeqList_refl : (l : List J) → jeqList l l = true
  | [] => by simp [jeqList]
  | a :: as_ => by simp [jeqList, jeq_refl a, jeqList_refl as_]

theorem jeqDict_refl : (ps : List (String × J)) → jeqDict ps ps = true
  | [] => by simp [jeqDict]
  | (k, v) :: ps => by simp [jeqDict, jeq_refl v, jeqDict_refl ps]

end

mutual

theorem jeq_sound : (a b : J) → jeq a b = true → a = b
  | jnull, jnull, _ => rfl
  | jbool a, jbool b, h => by simp [jeq] at h; simp [h]
  | jint a, jint b, h => by simp [jeq] at h; simp [h]
  | jstr a, jstr b, h => by simp [jeq] at h; simp [h]
  | jlist as_, jlist bs, h => by
      simp only [jeq] at h
      simp [jeqList_sound as_ bs h]
  | jdict ps, jdict qs, h => by
      simp only [jeq] at h
      simp [jeqDict_sound ps qs h]
  | jnull, jbool _, h => by simp [jeq] at h
  | jnull, jint _, h => by simp [jeq] at h
  | jnull, jstr _, h => by simp [jeq] at h
  | jnull, jlist _, h => by simp [jeq] at h
  | jnull, jdict _, h => by simp [jeq] at h
  | jbool _, jnull, h => by simp [jeq] at h
  | jbool _, jint _, h => by simp [jeq] at h
  | jbool _, jstr _, h => by simp [jeq] at h
  | jbool _, jlist _, h => by simp [jeq] at h
  | jbool _, jdict _, h => by simp [jeq] at h
  | jint _, jnull, h => by simp [jeq] at h
  | jint _, jbool _, h => by simp [jeq] at h
  | jint _, jstr _, h => by simp [jeq] at h
  | jint _, jlist _, h => by simp [jeq] at h
  | jint _, jdict _, h => by simp [jeq] at h
  | jstr _, jnull, h => by simp [jeq] at h
  | jstr _, jbool _, h => by simp [jeq] at h
  | jstr _, jint _, h => by simp [jeq] at h
  | jstr _, jlist _, h => by simp [jeq] at h
  | jstr _, jdict _, h => by simp [jeq] at h
  | jlist _, jnull, h => by simp [jeq] at h
  | jlist _, jbool _, h => by simp [jeq] at h
  | jlist _, jint _, h => by simp [jeq] at h
  | jlist _, jstr _, h => by simp [jeq] at h
  | jlist _, jdict _, h => by simp [jeq] at h
  | jdict _, jnull, h => by simp [jeq] at h
  | jdict _, jbool _, h => by simp [jeq] at h
  | jdict _, jint _, h => by simp [jeq] at h
  | jdict _, jstr _, h => by simp [jeq] at h
  | jdict _, jlist _, h => by simp [jeq] at h

theorem jeqList_sound : (a b : List J) → jeqList a b = true → a = b
  | [], [], _ => rfl
  | a :: as_, b :: bs, h => by
      simp only [jeqList, Bool.and_eq_true] at h
      simp [jeq_sound a b h.1, jeqList_sound as_ bs h.2]
  | [], _ :: _, h => by simp [jeqList] at h
  | _ :: _, [], h => by simp [jeqList] at h

theorem jeqDict_sound : (a b : List (String × J)) → jeqDict a b = true → a = b
  | [], [], _ => rfl
  | (k, v) :: ps, (l, w) :: qs, h => by
      simp only [jeqDict, Bool.and_eq_true, beq_iff_eq] at h
      simp [h.1.1, jeq_sound v w h.1.2, jeqDict_sound ps qs h.2]
  | [], _ :: _, h => by simp [jeqDict] at h
  | _ :: _, [], h => by simp [jeqDict] at h

end

instance : DecidableEq J := fun a b =>
  if h : jeq a b = true then isTrue (jeq_sound a b h)
  else isFalse (fun he => h (he ▸ jeq_refl a))

/-- Python truthiness of a JSON value: `None`, `False`, `0`, `""`, `[]`
and an empty dict are falsy, everything else is truthy. -/
def truthy : J → Bool
  | jnull => false
  | jbool b => b
  | jint n => n != 0
  | jstr s => s != ""
  | jlist xs => !xs.isEmpty
  | jdict ps => !ps.isEmpty

/-- Python `a or b`: `a` when `a` is truthy, otherwise `b`. -/
def pyOr (a b : J) : J := if truthy a then a else b

/-- Python `o.get(k)` on a dict, with a missing key giving `None`
(`jnull`).  On a non-dict Python raises; the translation returns `jnull`
and theorems whose claims touch this case restrict inputs instead. -/
def pyGet (o : J) (k : String) : J :=
  match o with
  | jdict ps => (ps.lookup k).getD jnull
  | _ => jnull

mutual

/-- Python `repr` of a JSON value, used by `str` on non-string values.
The quote placement mirrors CPython; escaping inside strings is not
reproduced (no modelled code path feeds such values to `str`). -/
def pyRepr : J → String
  | jnull => "None"
  | jbool true => "True"
  | jbool false => "False"
  | jint n => toString n
  | jstr s => "\x27" ++ s ++ "\x27"
  | jlist xs => "[" ++ pyReprList xs ++ "]"
  | jdict ps => "\x7b" ++ pyReprDict ps ++ "\x7d"

/-- Comma-joined reprs of array elements. -/
def pyReprList : List J → String
  | [] => ""
  | [x] => pyRepr x
  | x :: xs => pyRepr x ++ ", " ++ pyReprList xs

/-- Comma-joined reprs of object entries. -/
def pyReprDict : List (String × J) → String
  | [] => ""
  | [(k, v)] => "\x27" ++ k ++ "\x27: " ++ pyRepr v
  | (k, v) :: ps => "\x27" ++ k ++ "\x27: " ++ pyRepr v ++ ", " ++ pyReprDict ps

end

/-- Python `str(v)`: the identity on strings, `repr`-like otherwise. -/
def pyStr : J → String
  | jstr s => s
  | v => pyRepr v

/-- Characters Python `str.strip()` removes by default. -/
def isPySpace (c : Char) : Bool :=
  c == ' ' || c == '\t' || c == '\n' || c == '\r' || c == '\x0b' || c == '\x0c'

/-- Python `s.strip()`: drop leading and trailing whitespace. -/
def stripStr (s : String) : String :=
  String.mk (((s.toList.dropWhile isPySpace).reverse.dropWhile isPySpace).reverse)

/-- Python `s.upper()` (ASCII behaviour). -/
def upperStr (s : String) : String :=
  String.mk (s.toList.map Char.toUpper)

/-- Python `s.isdigit()` (ASCII behaviour): non-empty and all digits. -/
def pyIsDigit (s : String) : Bool :=
  !s.toList.isEmpty && s.toList.all (fun c => '0' ≤ c && c ≤ '9')

/-- Python `str(v)[:n]`: keep the first `n` characters. -/
def strTake (s : String) (n : Nat) : String := String.mk (s.toList.take n)

theorem string_helper_checks :
    stripStr "  ab-12  " = "ab-12" ∧ upperStr "ab-12" = "AB-12" ∧
    pyIsDigit "123" = true ∧ pyIsDigit "" = false ∧ pyIsDigit "12a" = false := by
  decide

/-- Calendar dates as produced by `datetime.date`. -/
structure Date where
  y : Nat
  m : Nat
  d : Nat
deriving DecidableEq

/-- Python `date` strict comparison: lexicographic on (year, month, day). -/
def dlt (a b : Date) : Bool :=
  if a.y < b.y then true
  else if b.y < a.y then false
  else if a.m < b.m then true
  else if b.m < a.m then false
  else decide (a.d < b.d)

/-- Non-strict date comparison, `a <= b`. -/
def dle (a b : Date) : Bool := !dlt b a

/-- Gregorian leap-year rule used by `datetime`. -/
def isLeap (y : Nat) : Bool :=
  (y % 4 == 0 && y % 100 != 0) || y % 400 == 0

/-- Number of days in a month, as validated by the `datetime` constructor. -/
def daysInMonth (y m : Nat) : Nat :=
  if m = 2 then (if isLeap y then 29 else 28)
  else if m = 4 ∨ m = 6 ∨ m = 9 ∨ m = 11 then 30
  else 31

/-- Split a character list on a separator, keeping empty segments, as the
`%Y-%m-%d` format string splits its input at the literal dashes. -/
def splitSep (sep : Char) : List Char → List (List Char)
  | [] => [[]]
  | c :: rest =>
      match splitSep sep rest with
      | [] => if c = sep then [[], []] else [[c]]
      | h :: t => if c = sep then [] :: h :: t else (c :: h) :: t

/-- Value of an all-digit character list. -/
def digitsVal (cs : List Char) : Nat :=
  cs.foldl (fun a c => a * 10 + (c.toNat - '0'.toNat)) 0

/-- Test for an ASCII digit. -/
def isDigitChar (c : Char) : Bool := '0' ≤ c && c ≤ '9'

/-- Translation of `datetime.strptime(s, "%Y-%m-%d").date()` restricted to
its success/failure behaviour: `%Y` consumes exactly four digits, `%m` and
`%d` one or two, the dashes are literal, the whole string must be
consumed, and the resulting triple must be a valid `datetime` date
(year at least 1, month 1..12, day within the month).  Failure is `none`
where Python raises `ValueError`. -/
def parseDate (s : String) : Option Date :=
  match splitSep '-' s.toList with
  | [ys, ms, ds] =>
      if ys.length = 4 ∧ ys.all isDigitChar ∧
         1 ≤ ms.length ∧ ms.length ≤ 2 ∧ ms.all isDigitChar ∧
         1 ≤ ds.length ∧ ds.length ≤ 2 ∧ ds.all isDigitChar then
        let y := digitsVal ys
        let m := digitsVal ms
        let d := digitsVal ds
        if 1 ≤ y ∧ 1 ≤ m ∧ m ≤ 12 ∧ 1 ≤ d ∧ d ≤ daysInMonth y m then
          some ⟨y, m, d⟩
        else none
      else none
  | _ => none

/-- Translation of `_dt` (src/main.py:30-33): `None`/empty input gives
`None`, otherwise a strict `%Y-%m-%d` parse with `None` on failure. -/
def dt (s : String) : Option Date :=
  if s = "" then none else parseDate s

/-- Day number of a date (proleptic Gregorian, epoch 1970-01-01), used to
model `timedelta` arithmetic on `datetime.date`. -/
def dateToDays (dt : Date) : Int :=
  let y : Int := if dt.m ≤ 2 then (dt.y : Int) - 1 else (dt.y : Int)
  let m : Int := (dt.m : Int)
  let d : Int := (dt.d : Int)
  let era : Int := (if 0 ≤ y then y else y - 399).fdiv 400
  let yoe : Int := y - era * 400
  let doy : Int := ((153 * (m + (if 2 < m then -3 else 9)) + 2).fdiv 5) + d - 1
  let doe : Int := yoe * 365 + yoe.fdiv 4 - yoe.fdiv 100 + doy
  era * 146097 + doe - 719468

/-- Inverse of `dateToDays`. -/
def dateOfDays (z0 : Int) : Date :=
  let z := z0 + 719468
  let era := z.fdiv 146097
  let doe := z - era * 146097
  let yoe := (doe - doe.fdiv 1460 + doe.fdiv 36524 - doe.fdiv 146096).fdiv 365
  let y := yoe + era * 400
  let doy := doe - (365 * yoe + yoe.fdiv 4 - yoe.fdiv 100)
  let mp := (5 * doy + 2).fdiv 153
  let d := doy - (153 * mp + 2).fdiv 5 + 1
  let m := mp + (if mp < 10 then 3 else -9)
  ⟨(y + (if m ≤ 2 then 1 else 0)).toNat, m.toNat, d.toNat⟩

/-- Python `today - timedelta(days=n)`. -/
def subDays (dt : Date) (n : Nat) : Date := dateOfDays (dateToDays dt - n)

theorem parseDate_checks :
    parseDate "2025-09-28" = some ⟨2025, 9, 28⟩ ∧ parseDate "2025-02-30" = none ∧
    parseDate "2024-2-29" = some ⟨2024, 2, 29⟩ ∧ dt "" = none ∧
    parseDate "2025-09-28 19" = none := by
  decide

theorem subDays_checks :
    subDays ⟨2025, 10, 12⟩ 30 = ⟨2025, 9, 12⟩ ∧ subDays ⟨2024, 3, 5⟩ 30 = ⟨2024, 2, 4⟩ := by
  decide

/-- Translation of `_unwrap_list` (src/main.py:35-44): `None` gives `[]`;
a list is returned as is; a dict yields the value of the first key among
`data`, `results`, `items`, `orders`, `pedidos` whose value is a list,
or `[obj]` when none qualifies; any other value gives `[]`. -/
def unwrapList : J → List J
  | jnull => []
  | jlist l => l
  | jdict ps =>
      match ["data", "results", "items", "orders", "pedidos"].findSome?
          (fun k => match pyGet (jdict ps) k with
                    | jlist l => some l
                    | _ => none) with
      | some l => l
      | none => [jdict ps]
  | _ => []

/-- Translation of `_extract_tracking` (src/main.py:46-61): probe the
eight candidates in source order and return `str(c).strip().upper()` of
the first truthy one, or `""`. -/
def extractTracking (o : J) : String :=
  let f := pyOr (pyGet o "frete") (jdict [])
  let ship := pyOr (pyGet o "shipping") (jdict [])
  let cands := [pyGet f "rastreio", pyGet f "codigo_rastreamento",
                pyGet f "tracking_code", pyGet ship "tracking",
                pyGet ship "tracking_code", pyGet o "rastreamento",
                pyGet o "tracking", pyGet o "tracking_code"]
  match cands.find? truthy with
  | some c => upperStr (stripStr (pyStr c))
  | none => ""

/-- Translation of `_extract_service` (src/main.py:63-66).  Python calls
`.strip()` on the chosen value, raising unless it is a string (or falsy,
replaced by `""`); the non-string truthy case is mapped to `""` here and
excluded by `rowSafe` in theorems. -/
def extractService (o : J) : String :=
  let f := pyOr (pyGet o "frete") (jdict [])
  let s := pyOr (pyGet f "servico") (pyGet (pyOr (pyGet o "shipping") (jdict [])) "service")
  match pyOr s (jstr "") with
  | jstr t => stripStr t
  | _ => ""

/-- Translation of `_created_any` (src/main.py:68-71): the raw value is
the first truthy of `data`, `created_at`, `criado_em`, `date` (else `""`),
and the parsed date is `_dt(str(raw)[:10])`. -/
def createdAny (o : J) : J × Option Date :=
  let raw := pyOr (pyGet o "data")
      (pyOr (pyGet o "created_at") (pyOr (pyGet o "criado_em") (pyOr (pyGet o "date") (jstr ""))))
  (raw, dt (strTake (pyStr raw) 10))

/-- Characters the regex `[^A-Z0-9]` of `_normalize_tracking` keeps. -/
def isTrackChar (c : Char) : Bool :=
  ('A' ≤ c && c ≤ 'Z') || ('0' ≤ c && c ≤ '9')

/-- Translation of `_normalize_tracking` (src/main.py:139-140): upper-case
then delete every character outside `A`-`Z`, `0`-`9`. -/
def normalizeTracking (s : String) : String :=
  String.mk (((upperStr s).toList).filter isTrackChar)

/-- Values Python may hash and compare as set members without error and
whose equality agrees with `J` equality (rules out containers, and rules
out booleans because Python identifies `True` with `1`). -/
def idOk : J → Bool
  | jlist _ => false
  | jdict _ => false
  | jbool _ => false
  | _ => true

/-- Values `v` for which Python `v or {}` is a dict: a dict, or falsy. -/
def dictOrFalsy : J → Bool
  | jdict _ => true
  | v => !truthy v

/-- Values `v` for which Python `(v or "").strip()` does not raise. -/
def strOrFalsy : J → Bool
  | jstr _ => true
  | v => !truthy v

/-- Inputs on which the Python row-building code raises no exception, so
that the total Lean translation is exact: the record is a dict, its
`frete` and `shipping` are dicts or falsy, its `id` is hashable with
Python equality agreeing with `J` equality, and the service fields are
strings or falsy. -/
def rowSafe (o : J) : Bool :=
  match o with
  | jdict _ =>
      let f := pyOr (pyGet o "frete") (jdict [])
      let ship := pyOr (pyGet o "shipping") (jdict [])
      dictOrFalsy (pyGet o "frete") && dictOrFalsy (pyGet o "shipping") &&
      idOk (pyGet o "id") && strOrFalsy (pyGet f "servico") && strOrFalsy (pyGet ship "service")
  | _ => false

/-- Query parameters of one GET against the `/order` list endpoint (all
parameter values the code sends are integers). -/
abbrev Params := List (String × Nat)

/-- The transport oracle for the `/order` list endpoint: parsed JSON body
(empty or unparsable bodies arrive as `{}`) and HTTP status code. -/
abbrev Fetch := Params → J × Nat

/-- Result triple of `_fetch_list`: items, raw body, status. -/
structure FetchRes where
  items : List J
  body : J
  status : Nat
deriving DecidableEq

/-- Translation of `_fetch_list` (src/main.py:73-84): take `js["data"]`
when it is a list on a dict body, otherwise `_unwrap_list(js)`. -/
def fetchList (fetch : Fetch) (params : Params) : FetchRes :=
  let (js, st) := fetch params
  let direct : Option (List J) :=
    match js with
    | jdict _ =>
        match pyGet js "data" with
        | jlist l => some l
        | _ => none
    | _ => none
  match direct with
  | some l => ⟨l, js, st⟩
  | none => ⟨unwrapList js, js, st⟩

/-- Pagination modes of `_discover_pagination`. -/
inductive PgMode where
  | modeNone
  | modeLimitOnly
  | modePage
  | modeOffset
deriving DecidableEq

/-- Result of `_discover_pagination`: mode, parameter-name mapping and
suggested size. -/
structure Pg where
  mode : PgMode
  keys : List (String × String)
  size : Nat
deriving DecidableEq

/-- Python `keys[k]` on the candidate key dicts (total here; all lookups
in the source use keys the candidate defines). -/
def kget (keys : List (String × String)) (k : String) : String :=
  (keys.lookup k).getD ""

/-- One pagination candidate of `_discover_pagination`. -/
structure Cand where
  mode : PgMode
  keys : List (String × String)
  size : Nat
deriving DecidableEq

/-- The candidate table of `_discover_pagination` (src/main.py:94-103), in
source order. -/
def pagCandidates : List Cand :=
  [⟨.modePage,   [("page", "page"),   ("size", "page_size")],        200⟩,
   ⟨.modePage,   [("page", "page"),   ("size", "per_page")],         200⟩,
   ⟨.modePage,   [("page", "pagina"), ("size", "itens")],            200⟩,
   ⟨.modePage,   [("page", "pagina"), ("size", "itens_por_pagina")], 200⟩,
   ⟨.modeOffset, [("offset", "offset"), ("limit", "limit")],         200⟩,
   ⟨.modeOffset, [("offset", "start"),  ("limit", "limit")],         200⟩,
   ⟨.modeOffset, [("offset", "skip"),   ("limit", "take")],          200⟩,
   ⟨.modeLimitOnly, [("limit", "limit")],                            1000⟩]

/-- First trial parameter set of a page/offset candidate (page 1, or
offset 0). -/
def candParams1 (c : Cand) : Params :=
  match c.mode with
  | .modePage => [(kget c.keys "page", 1), (kget c.keys "size", c.size)]
  | .modeOffset => [(kget c.keys "offset", 0), (kget c.keys "limit", c.size)]
  | .modeLimitOnly => [(kget c.keys "limit", c.size)]
  | .modeNone => []

/-- Second trial parameter set of a page/offset candidate (page 2, or
offset = size). -/
def candParams2 (c : Cand) : Params :=
  match c.mode with
  | .modePage => [(kget c.keys "page", 2), (kget c.keys "size", c.size)]
  | .modeOffset => [(kget c.keys "offset", c.size), (kget c.keys "limit", c.size)]
  | _ => []

/-- Acceptance test a page/offset candidate must pass in
`_discover_pagination` (src/main.py:120-130): both trial fetches return
status 200 with non-empty item lists and their first records differ. -/
def trialsDiffer (fetch : Fetch) (c : Cand) : Prop :=
  let r1 := fetchList fetch (candParams1 c)
  let r2 := fetchList fetch (candParams2 c)
  r1.status = 200 ∧ r1.items ≠ [] ∧ r2.status = 200 ∧ r2.items ≠ [] ∧
    r1.items.head? ≠ r2.items.head?

instance (fetch : Fetch) (c : Cand) : Decidable (trialsDiffer fetch c) := by
  unfold trialsDiffer; infer_instance

/-- Trial of one candidate in the loop of `_discover_pagination`
(src/main.py:115-135), with the trace of the requests it issues. -/
def tryCand (fetch : Fetch) (c : Cand) : Option Pg × List Params :=
  match c.mode with
  | .modePage =>
      let p1 := candParams1 c
      let p2 := candParams2 c
      if trialsDiffer fetch c then (some ⟨c.mode, c.keys, c.size⟩, [p1, p2])
      else (none, [p1, p2])
  | .modeOffset =>
      let p1 := candParams1 c
      let p2 := candParams2 c
      if trialsDiffer fetch c then (some ⟨c.mode, c.keys, c.size⟩, [p1, p2])
      else (none, [p1, p2])
  | .modeLimitOnly =>
      let p := candParams1 c
      let r := fetchList fetch p
      if r.status = 200 ∧ r.items ≠ [] then (some ⟨c.mode, c.keys, c.size⟩, [p])
      else (none, [p])
  | .modeNone => (none, [])

/-- The candidate loop of `_discover_pagination`: first acceptance wins;
all requests issued along the way are traced. -/
def tryCands (fetch : Fetch) : List Cand → Option Pg × List Params
  | [] => (none, [])
  | c :: rest =>
      match tryCand fetch c with
      | (some pg, t) => (some pg, t)
      | (none, t) =>
          let (r, t2) := tryCands fetch rest
          (r, t ++ t2)

/-- Translation of `_discover_pagination` (src/main.py:86-137): an
unparameterized fetch with status 200 and items decides between
`limit_only` (a `limit`-widened fetch returns status 200 and strictly
more items) and `none`; otherwise the candidate table is tried in order,
falling back to `none` with size 100. -/
def discoverPagination (fetch : Fetch) : Pg × List Params :=
  let r0 := fetchList fetch []
  if r0.status = 200 ∧ r0.items ≠ [] then
    let rL := fetchList fetch [("limit", 1000)]
    if rL.status = 200 ∧ r0.items.length < rL.items.length then
      (⟨.modeLimitOnly, [("limit", "limit")], 1000⟩, [[], [("limit", 1000)]])
    else
      (⟨.modeNone, [], r0.items.length⟩, [[], [("limit", 1000)]])
  else
    match tryCands fetch pagCandidates with
    | (some pg, t) => (pg, [] :: t)
    | (none, t) => (⟨.modeNone, [], 100⟩, [] :: t)

/-- The local `hit` helper of `_find_order_by_tracking`
(src/main.py:155-157): items of a fetch when its status is 200, else `[]`. -/
def hitFetch (fetch : Fetch) (params : Params) : List J :=
  let r := fetchList fetch params
  if r.status = 200 then r.items else []

/-- The matching test of the scan loops: first record whose normalized
extracted tracking equals the normalized query. -/
def scanMatch (tnorm : String) (items : List J) : Option J :=
  items.find? (fun o => normalizeTracking (extractTracking o) == tnorm)

/-- The page-mode scan loop of `_find_order_by_tracking`
(src/main.py:166-177); the fuel argument counts the remaining iterations
of `while page <= max_pages`. -/
def findByPage (fetch : Fetch) (pageKey sizeKey : String) (size : Nat) (tnorm : String) :
    Nat → Nat → Option J × List Params
  | 0, _ => (none, [])
  | fuel + 1, page =>
      let params := [(pageKey, page), (sizeKey, size)]
      let items := hitFetch fetch params
      if items = [] then (none, [params])
      else
        match scanMatch tnorm items with
        | some o => (some o, [params])
        | none =>
            let (r, t) := findByPage fetch pageKey sizeKey size tnorm fuel (page + 1)
            (r, params :: t)

/-- The offset-mode scan loop of `_find_order_by_tracking`
(src/main.py:179-190); the fuel argument counts the remaining iterations
of `for _ in range(max_pages)`. -/
def findByOffset (fetch : Fetch) (offsetKey limitKey : String) (size : Nat) (tnorm : String) :
    Nat → Nat → Option J × List Params
  | 0, _ => (none, [])
  | fuel + 1, offset =>
      let params := [(offsetKey, offset), (limitKey, size)]
      let items := hitFetch fetch params
      if items = [] then (none, [params])
      else
        match scanMatch tnorm items with
        | some o => (some o, [params])
        | none =>
            let (r, t) := findByOffset fetch offsetKey limitKey size tnorm fuel (offset + size)
            (r, params :: t)

/-- Translation of `_find_order_by_tracking` (src/main.py:142-192): a
query normalizing to `""` returns `None` before any discovery or fetch;
otherwise pagination is discovered and the scan runs per mode. -/
def findOrderByTracking (fetch : Fetch) (tracking : String) (maxPages : Nat) :
    Option J × List Params :=
  let tnorm := normalizeTracking tracking
  if tnorm = "" then (none, [])
  else
    let (pg, t0) := discoverPagination fetch
    match pg.mode with
    | .modeNone =>
        (scanMatch tnorm (hitFetch fetch []), t0 ++ [[]])
    | .modeLimitOnly =>
        let p := [(kget pg.keys "limit", pg.size)]
        (scanMatch tnorm (hitFetch fetch p), t0 ++ [p])
    | .modePage =>
        let (r, t) := findByPage fetch (kget pg.keys "page") (kget pg.keys "size") pg.size tnorm
            maxPages 1
        (r, t0 ++ t)
    | .modeOffset =>
        let (r, t) := findByOffset fetch (kget pg.keys "offset") (kget pg.keys "limit") pg.size
            tnorm maxPages 0
        (r, t0 ++ t)

/-- The row shape of the `/api/wbuy/lookup` response (src/main.py:337-345). -/
structure LRow where
  orderId : J
  numero : J
  tracking : String
  valorFrete : String
  service : String
  createdAt : J
  updatedAt : J
deriving DecidableEq

/-- Responses of the `/api/wbuy/lookup` handler: an error JSON with HTTP
status, or a success JSON with `found` and an optional row. -/
inductive LookupResp where
  | lerr (status : Nat) (msg : String)
  | lok (found : Bool) (row : Option LRow)
deriving DecidableEq

/-- Row construction of `lookup_by_tracking` (src/main.py:336-345).  The
`createdAt` candidate chain here omits the `date` alias that
`_created_any` probes. -/
def lookupRow (o : J) : LRow :=
  let frete := pyOr (pyGet o "frete") (jdict [])
  { orderId := pyGet o "id"
    numero := pyOr (pyGet o "numero") (pyOr (pyGet o "order_number") (pyGet o "identificacao"))
    tracking := extractTracking o
    valorFrete := pyStr (pyOr (pyGet frete "valor") (jstr ""))
    service := extractService o
    createdAt := pyOr (pyGet o "data") (pyOr (pyGet o "created_at") (pyOr (pyGet o "criado_em") (jstr "")))
    updatedAt := pyOr (pyGet o "updated_at") (pyOr (pyGet o "atualizado_em") (jstr "")) }

/-- Translation of the `/api/wbuy/lookup` handler `lookup_by_tracking`
(src/main.py:321-346).  The handler reads the process credential nowhere;
the unused `_token` argument records that the configuration is in scope
but never consulted.  The second component is the trace of `/order`
requests issued. -/
def lookupByTracking (_token : String) (fetch : Fetch) (trackingArg : String) (maxPages : Nat) :
    LookupResp × List Params :=
  let tracking := stripStr trackingArg
  if tracking = "" then (.lerr 400 "Parâmetro tracking é obrigatório.", [])
  else
    match findOrderByTracking fetch tracking maxPages with
    | (none, t) => (.lok false none, t)
    | (some o, t) =>
        if truthy o then (.lok true (some (lookupRow o)), t)
        else (.lok false none, t)

/-- The row shape of the `/api/wbuy/orders` response (src/main.py:258-265
and 231-238). -/
structure ORow where
  orderId : J
  numero : J
  tracking : String
  service : String
  createdAt : J
  updatedAt : J
deriving DecidableEq

/-- Row construction shared by `add_rows` and the by-id shortcut of
`list_orders`. -/
def orderRow (o : J) : ORow :=
  { orderId := pyGet o "id"
    numero := pyOr (pyGet o "numero") (pyOr (pyGet o "order_number") (pyGet o "identificacao"))
    tracking := extractTracking o
    service := extractService o
    createdAt := (createdAny o).1
    updatedAt := pyOr (pyGet o "updated_at") (pyOr (pyGet o "atualizado_em") (jstr "")) }

/-- Mutable state of the scan in `list_orders`: the accumulated rows and
the set of ids already seen (as a list probed by membership). -/
structure AggSt where
  rows : List ORow
  seen : List J
deriving DecidableEq

/-- The date-window skip test of `add_rows` (src/main.py:248-253): a
record is skipped exactly when its date parses and falls strictly before
`dfrom` or strictly after `dto`. -/
def dateExcludedB (dfrom dto : Date) (o : J) : Bool :=
  match (createdAny o).2 with
  | some d => dlt d dfrom || dlt dto d
  | none => false

/-- One iteration of the loop in `add_rows` (src/main.py:245-267): skip
on date exclusion, then on a falsy or already-seen id; otherwise record
the id and append the row. -/
def addRowsStep (dfrom dto : Date) (st : AggSt) (o : J) : AggSt :=
  if dateExcludedB dfrom dto o then st
  else
    let oid := pyGet o "id"
    if !truthy oid || st.seen.contains oid then st
    else ⟨st.rows ++ [orderRow o], oid :: st.seen⟩

/-- Translation of `add_rows` over a fetched page. -/
def addRows (dfrom dto : Date) (st : AggSt) (items : List J) : AggSt :=
  items.foldl (addRowsStep dfrom dto) st

/-- Python `min` over a list of dates (`none` on an empty list, where
Python raises; the callers test emptiness first). -/
def minDate : List Date → Option Date
  | [] => none
  | d :: rest => some (rest.foldl (fun a b => if dlt b a then b else a) d)

/-- The parsed dates of a fetched page, as computed at src/main.py:291. -/
def pageDates (items : List J) : List Date :=
  items.filterMap (fun o => (createdAny o).2)

/-- The boundary-lookahead test at src/main.py:292: the page has parsed
dates and their minimum falls before the window start. -/
def lookaheadTest (dfrom : Date) (items : List J) : Bool :=
  match minDate (pageDates items) with
  | some mn => dlt mn dfrom
  | none => false

/-- The page-mode walk of `list_orders` (src/main.py:283-299), with the
one-page lookahead past the window start; the fuel argument counts the
remaining iterations of `while page <= max_pages`. -/
def ordersPageWalk (fetch : Fetch) (pageKey sizeKey : String) (size : Nat) (dfrom dto : Date) :
    Nat → Nat → AggSt → AggSt × List Params
  | 0, _, st => (st, [])
  | fuel + 1, page, st =>
      let params := [(pageKey, page), (sizeKey, size)]
      let r := fetchList fetch params
      if r.status ≠ 200 ∨ r.items = [] then (st, [params])
      else
        let st2 := addRows dfrom dto st r.items
        if lookaheadTest dfrom r.items then
          let params2 := [(pageKey, page + 1), (sizeKey, size)]
          let r2 := fetchList fetch params2
          if r2.status = 200 ∧ r2.items ≠ [] then
            (addRows dfrom dto st2 r2.items, [params, params2])
          else (st2, [params, params2])
        else
          let (st3, t) := ordersPageWalk fetch pageKey sizeKey size dfrom dto fuel (page + 1) st2
          (st3, params :: t)

/-- The offset-mode walk of `list_orders` (src/main.py:301-316); the fuel
argument counts the remaining iterations of `for _ in range(max_pages)`. -/
def ordersOffsetWalk (fetch : Fetch) (offsetKey limitKey : String) (size : Nat) (dfrom dto : Date) :
    Nat → Nat → AggSt → AggSt × List Params
  | 0, _, st => (st, [])
  | fuel + 1, offset, st =>
      let params := [(offsetKey, offset), (limitKey, size)]
      let r := fetchList fetch params
      if r.status ≠ 200 ∨ r.items = [] then (st, [params])
      else
        let st2 := addRows dfrom dto st r.items
        if lookaheadTest dfrom r.items then
          let params2 := [(offsetKey, offset + size), (limitKey, size)]
          let r2 := fetchList fetch params2
          if r2.status = 200 ∧ r2.items ≠ [] then
            (addRows dfrom dto st2 r2.items, [params, params2])
          else (st2, [params, params2])
        else
          let (st3, t) := ordersOffsetWalk fetch offsetKey limitKey size dfrom dto fuel
              (offset + size) st2
          (st3, params :: t)

/-- One upstream request of the `/api/wbuy/orders` handler: a `/order`
list request with parameters, or a `/order/{id}` detail request. -/
inductive Req where
  | listReq (params : Params)
  | detailReq (oid : String)
deriving DecidableEq

/-- Responses of the `/api/wbuy/orders` handler: an error JSON with HTTP
status, or a success JSON with the window, count and rows. -/
inductive OrdersResp where
  | oerr (status : Nat) (msg : String)
  | ook (dfrom dto : Date) (count : Nat) (rows : List ORow)
deriving DecidableEq

/-- The by-id shortcut body of `list_orders` (src/main.py:223-239): on a
200 detail response, unwrap a non-empty `data` list envelope to its first
element and emit one row; otherwise an empty success. -/
def listOrdersById (fetchDetail : String → J × Nat) (dfrom dto : Date) (q : String) :
    OrdersResp × List Req :=
  let (js, st) := fetchDetail q
  if st = 200 then
    let o : J :=
      match js with
      | jdict _ =>
          match pyGet js "data" with
          | jlist (x :: _) => x
          | _ => js
      | _ => js
    (.ook dfrom dto 1 [orderRow o], [.detailReq q])
  else (.ook dfrom dto 0 [], [.detailReq q])

/-- The discover-and-scan phase of `list_orders` (src/main.py:241-318),
shared by all non-shortcut query forms. -/
def listOrdersScan (fetch : Fetch) (dfrom dto : Date) (maxPages : Nat) :
    OrdersResp × List Req :=
  let (pg, t0) := discoverPagination fetch
  let tr0 := t0.map Req.listReq
  match pg.mode with
  | .modeNone =>
      let r := fetchList fetch []
      if r.status ≠ 200 then
        (.oerr 502 ("HTTP " ++ toString r.status ++ " em /order"), tr0 ++ [.listReq []])
      else
        let stF := addRows dfrom dto ⟨[], []⟩ r.items
        (.ook dfrom dto stF.rows.length stF.rows, tr0 ++ [.listReq []])
  | .modeLimitOnly =>
      let p := [(kget pg.keys "limit", pg.size)]
      let r := fetchList fetch p
      if r.status ≠ 200 then
        (.oerr 502 ("HTTP " ++ toString r.status ++ " em /order"), tr0 ++ [.listReq p])
      else
        let stF := addRows dfrom dto ⟨[], []⟩ r.items
        (.ook dfrom dto stF.rows.length stF.rows, tr0 ++ [.listReq p])
  | .modePage =>
      let (stF, t) := ordersPageWalk fetch (kget pg.keys "page") (kget pg.keys "size") pg.size
          dfrom dto maxPages 1 ⟨[], []⟩
      (.ook dfrom dto stF.rows.length stF.rows, tr0 ++ t.map Req.listReq)
  | .modeOffset =>
      let (stF, t) := ordersOffsetWalk fetch (kget pg.keys "offset") (kget pg.keys "limit")
          pg.size dfrom dto maxPages 0 ⟨[], []⟩
      (.ook dfrom dto stF.rows.length stF.rows, tr0 ++ t.map Req.listReq)

/-- Translation of the `/api/wbuy/orders` handler `list_orders`
(src/main.py:204-318).  `today` stands for `datetime.utcnow().date()`;
`fromArg`, `toArg`, `qArg` are the query parameters with `""` for absent;
`maxPages` is the parsed `max_pages` argument.  The second component is
the trace of upstream requests issued, in order. -/
def listOrders (token : String) (fetch : Fetch) (fetchDetail : String → J × Nat) (today : Date)
    (fromArg toArg qArg : String) (maxPages : Nat) : OrdersResp × List Req :=
  if token = "" then (.oerr 500 "WBUY_TOKEN ausente", [])
  else
    let dfrom := (dt fromArg).getD (subDays today 30)
    let dto := (dt toArg).getD today
    let q := stripStr qArg
    if pyIsDigit q then listOrdersById fetchDetail dfrom dto q
    else listOrdersScan fetch dfrom dto maxPages

/-- Spec-side helper: the value under key `k` when it is bound to a list. -/
def listValued (ps : List (String × J)) (k : String) : Option (List J) :=
  match ps.lookup k with
  | some (jlist l) => some l
  | _ => none

/-- Spec-side reading of the Unwrapper policy for dicts: probe `data`,
`results`, `items`, `orders`, `pedidos` in that order and return the
first whose value is a list. -/
def specFirstListUnder (ps : List (String × J)) : Option (List J) :=
  match listValued ps "data" with
  | some l => some l
  | none =>
      match listValued ps "results" with
      | some l => some l
      | none =>
          match listValued ps "items" with
          | some l => some l
          | none =>
              match listValued ps "orders" with
              | some l => some l
              | none => listValued ps "pedidos"

theorem pyGet_listValued (ps : List (String × J)) (k : String) :
    (match pyGet (jdict ps) k with | jlist l => some l | _ => none) = listValued ps k := by
  unfold pyGet listValued
  cases h : ps.lookup k with
  | none => simp [h]
  | some v => cases v <;> simp [h]

/-- C2.  The Unwrapper returns a list unchanged; on a dict it returns the
value of the first key among `data`, `results`, `items`, `orders`,
`pedidos` bound to a list, defaulting to the one-element list holding the
dict itself; on null it returns the empty list.  Totality of
`unwrapList` models the never-raises part of the claim. -/
theorem unwrapList_envelope_cases (v : J) :
    (∀ l, v = jlist l → unwrapList v = l) ∧
    (v = jnull → unwrapList v = []) ∧
    (∀ ps, v = jdict ps → unwrapList v = (specFirstListUnder ps).getD [jdict ps]) := by
  refine ⟨?_, ?_, ?_⟩
  · rintro l rfl; rfl
  · rintro rfl; rfl
  · rintro ps rfl
    show (match ["data", "results", "items", "orders", "pedidos"].findSome?
        (fun k => match pyGet (jdict ps) k with
                  | jlist l => some l
                  | _ => none) with
      | some l => l
      | none => [jdict ps]) = _
    simp only [List.findSome?, pyGet_listValued]
    unfold specFirstListUnder
    cases listValued ps "data" <;> cases listValued ps "results" <;>
      cases listValued ps "items" <;> cases listValued ps "orders" <;>
      cases listValued ps "pedidos" <;> simp

/-- Witness for C2 at a concrete envelope: the `results` key wins once
`data` is not list-valued. -/
theorem unwrapList_envelope_witness :
    unwrapList (jdict [("data", jstr "x"), ("results", jlist [jint 3])])
      = (specFirstListUnder [("data", jstr "x"), ("results", jlist [jint 3])]).getD
          [jdict [("data", jstr "x"), ("results", jlist [jint 3])]] ∧
    unwrapList (jdict [("data", jstr "x"), ("results", jlist [jint 3])]) = [jint 3] :=
  ⟨(unwrapList_envelope_cases (jdict [("data", jstr "x"), ("results", jlist [jint 3])])).2.2
      [("data", jstr "x"), ("results", jlist [jint 3])] rfl,
   by decide⟩

/-- Spec-side reading of the comparator normal form: upper-case the
string and delete every character that is not `A`-`Z` or `0`-`9`. -/
def specUpperDelete (s : String) : List Char :=
  (s.toList.map Char.toUpper).filter isTrackChar

/-- C6.  The tracking comparator (equality of `_normalize_tracking`
values, as used at src/main.py:162) identifies exactly the strings that
agree after upper-casing and deleting non-alphanumerics; the concrete
pair of the spec compares equal; and the stored display form of an
extracted tracking code is only trimmed and upper-cased, punctuation
preserved. -/
theorem trackingComparator_normalization :
    (∀ a b : String, (normalizeTracking a = normalizeTracking b ↔
        specUpperDelete a = specUpperDelete b)) ∧
    normalizeTracking "AA 123456789-BR" = normalizeTracking "aa123456789br" ∧
    (∀ s : String, s ≠ "" →
        extractTracking (jdict [("frete", jdict [("rastreio", jstr s)])])
          = upperStr (stripStr s)) := by
  refine ⟨?_, by decide, ?_⟩
  · intro a b
    show String.mk (specUpperDelete a) = String.mk (specUpperDelete b) ↔ _
    constructor
    · intro h; injection h
    · intro h; rw [h]
  · intro s hs
    have hs2 : (s != "") = true := by simp [hs]
    simp [extractTracking, pyGet, pyOr, truthy, List.find?, hs2, pyStr]

/-- Witness for C6: the tracking comparator at the spec's example pair and
the display form of a padded, punctuated code. -/
theorem trackingComparator_witness :
    (" ab-12 " ≠ "" ∧
      extractTracking (jdict [("frete", jdict [("rastreio", jstr " ab-12 ")])])
        = upperStr (stripStr " ab-12 ")) ∧
    extractTracking (jdict [("frete", jdict [("rastreio", jstr " ab-12 ")])]) = "AB-12" :=
  ⟨⟨by decide, trackingComparator_normalization.2.2 " ab-12 " (by decide)⟩, by decide⟩

/-- The raw `frete.valor` of an order object, as read at src/main.py:336
and 341. -/
def freteValor (o : J) : J :=
  pyGet (pyOr (pyGet o "frete") (jdict [])) "valor"

/-- C8 (amended).  The `valorFrete` field of the lookup row is the Python
`str` of the raw `frete.valor`, or `""` when that value is missing or
falsy; no conversion into integer cents takes place. -/
theorem valorFrete_raw_string (o : J) :
    (truthy (freteValor o) = false → (lookupRow o).valorFrete = "") ∧
    (truthy (freteValor o) = true → (lookupRow o).valorFrete = pyStr (freteValor o)) := by
  constructor <;> intro h
  · show pyStr (pyOr (freteValor o) (jstr "")) = ""
    simp [pyOr, h, pyStr]
  · show pyStr (pyOr (freteValor o) (jstr "")) = pyStr (freteValor o)
    simp [pyOr, h]

/-- Witness for C8 at a present and an absent `frete.valor`. -/
theorem valorFrete_raw_string_witness :
    (truthy (freteValor (jdict [("frete", jdict [("valor", jstr "10,50")])])) = true ∧
      (lookupRow (jdict [("frete", jdict [("valor", jstr "10,50")])])).valorFrete
        = pyStr (freteValor (jdict [("frete", jdict [("valor", jstr "10,50")])]))) ∧
    (truthy (freteValor (jdict [("id", jint 7)])) = false ∧
      (lookupRow (jdict [("id", jint 7)])).valorFrete = "") :=
  ⟨⟨by decide, (valorFrete_raw_string (jdict [("frete", jdict [("valor", jstr "10,50")])])).2
      (by decide)⟩,
   ⟨by decide, (valorFrete_raw_string (jdict [("id", jint 7)])).1 (by decide)⟩⟩

/-- Counterexample to C8 as stated: a Brazilian-locale string value is
stored verbatim in `valorFrete`, not reparsed and converted to the
integer minor-unit count `123456`; and a missing value yields the string
`""`, not the integer `0`. -/
theorem valorFrete_cex :
    (lookupRow (jdict [("frete", jdict [("valor", jstr "1.234,56")])])).valorFrete = "1.234,56" ∧
    (lookupRow (jdict [("frete", jdict [("valor", jstr "1.234,56")])])).valorFrete ≠ "123456" ∧
    (lookupRow (jdict [("id", jint 7)])).valorFrete = "" := by
  decide

theorem trackChar_of_space {c : Char} (h : isPySpace c = true) :
    isTrackChar (Char.toUpper c) = false := by
  simp only [isPySpace, Bool.or_eq_true, beq_iff_eq] at h
  rcases h with ((((h | h) | h) | h) | h) | h <;> subst h <;> decide

theorem filter_upper_dropWhile_space (l : List Char) :
    ((l.dropWhile isPySpace).map Char.toUpper).filter isTrackChar
      = (l.map Char.toUpper).filter isTrackChar := by
  induction l with
  | nil => rfl
  | cons c rest ih =>
      by_cases h : isPySpace c = true
      · rw [List.dropWhile_cons_of_pos h]
        simp [List.filter_cons, trackChar_of_space h, ih]
      · rw [List.dropWhile_cons_of_neg (by simp [h])]

theorem normalizeTracking_strip (s : String) :
    normalizeTracking (stripStr s) = normalizeTracking s := by
  show String.mk
      (((((s.data.dropWhile isPySpace).reverse.dropWhile isPySpace).reverse).map
          Char.toUpper).filter isTrackChar)
    = String.mk ((s.data.map Char.toUpper).filter isTrackChar)
  exact congrArg String.mk (by
    rw [List.map_reverse, List.filter_reverse, filter_upper_dropWhile_space,
        List.map_reverse, List.filter_reverse, filter_upper_dropWhile_space,
        List.reverse_reverse])

/-- C10 (amended).  A tracking query that is non-empty after trimming but
normalizes to the empty string makes the lookup return a success-shaped
not-found response with an empty request trace: no pagination discovery
and no upstream fetch happen. -/
theorem emptyNormalized_tracking_notFound (tok : String) (fetch : Fetch) (trk : String)
    (maxPages : Nat) (hne : stripStr trk ≠ "") (hnorm : normalizeTracking trk = "") :
    lookupByTracking tok fetch trk maxPages = (.lok false none, []) := by
  have hsn : normalizeTracking (stripStr trk) = "" := by
    rw [normalizeTracking_strip]; exact hnorm
  unfold lookupByTracking
  rw [if_neg hne]
  unfold findOrderByTracking
  rw [if_pos hsn]

/-- A benign oracle used by concrete instances: every request returns an
empty JSON object with status 200. -/
def plainFetch : Fetch := fun _ => (jdict [], 200)

/-- Witness for C10 at the query `"---"`. -/
theorem emptyNormalized_tracking_witness :
    stripStr "---" ≠ "" ∧ normalizeTracking "---" = "" ∧
    lookupByTracking "tok" plainFetch "---" 80 = (.lok false none, []) :=
  ⟨by decide, by decide,
   emptyNormalized_tracking_notFound "tok" plainFetch "---" 80 (by decide) (by decide)⟩

/-- Counterexample to C10 as stated: the whitespace-only query `" "`
contains no alphanumeric character, yet the endpoint answers with the
HTTP 400 missing-parameter error, not a success-shaped `found = false`
response, because the handler trims the query before the emptiness
check. -/
theorem emptyNormalized_whitespace_cex :
    normalizeTracking " " = "" ∧
    lookupByTracking "tok" plainFetch " " 80
      = (.lerr 400 "Parâmetro tracking é obrigatório.", []) := by
  decide

/-- Spec-side reading of the tracking candidate order: the `frete` block
spellings `rastreio`, `codigo_rastreamento`, `tracking_code`, then the
`shipping` block keys `tracking`, `tracking_code`, then the top-level
aliases `rastreamento`, `tracking`, `tracking_code`. -/
def specTrackingCandidates (o : J) : List J :=
  let fblock := pyOr (pyGet o "frete") (jdict [])
  let sblock := pyOr (pyGet o "shipping") (jdict [])
  [pyGet fblock "rastreio", pyGet fblock "codigo_rastreamento", pyGet fblock "tracking_code",
   pyGet sblock "tracking", pyGet sblock "tracking_code",
   pyGet o "rastreamento", pyGet o "tracking", pyGet o "tracking_code"]

/-- Spec-side reading of the winner rule: display form
(`str`, trim, upper-case) of the first non-empty candidate, else `""`. -/
def firstNonEmptyDisplay (cands : List J) : String :=
  match cands.find? truthy with
  | some c => upperStr (stripStr (pyStr c))
  | none => ""

/-- Presence test for the five nested shipping-info candidates. -/
def nestedTrackingPresent (o : J) : Bool :=
  ((specTrackingCandidates o).take 5).any truthy

/-- Python dict assignment `d[k] = v` on an object entry list: replace
the first binding of `k`, or append one. -/
def setAssoc (ps : List (String × J)) (k : String) (v : J) : List (String × J) :=
  match ps with
  | [] => [(k, v)]
  | (k2, w) :: rest => if k2 = k then (k, v) :: rest else (k2, w) :: setAssoc rest k v

theorem lookup_setAssoc_ne (ps : List (String × J)) (k k2 : String) (v : J) (h : k2 ≠ k) :
    (setAssoc ps k v).lookup k2 = ps.lookup k2 := by
  induction ps with
  | nil =>
      have hb : (k2 == k) = false := by simp [h]
      simp [setAssoc, List.lookup, hb]
  | cons p rest ih =>
      obtain ⟨k3, w⟩ := p
      by_cases h3 : k3 = k
      · subst h3
        have hb : (k2 == k3) = false := by simp [h]
        simp [setAssoc, List.lookup, hb]
      · rw [show setAssoc ((k3, w) :: rest) k v = (k3, w) :: setAssoc rest k v from by
            simp [setAssoc, h3]]
        simp only [List.lookup]
        cases hb : k2 == k3 <;> simp [ih]

theorem find?_truthy_append (l t1 t2 : List J) (h : l.any truthy = true) :
    (l ++ t1).find? truthy = (l ++ t2).find? truthy := by
  induction l with
  | nil => simp at h
  | cons c rest ih =>
      cases hc : truthy c with
      | true => simp [List.find?, hc]
      | false =>
          simp only [List.any_cons, hc, Bool.false_or] at h
          simp [List.find?, hc, ih h]

theorem extractTracking_as_display (o : J) :
    extractTracking o = firstNonEmptyDisplay (specTrackingCandidates o) := rfl

/-- C9.  Tracking extraction probes the fixed ordered candidate list —
`frete.rastreio`, `frete.codigo_rastreamento`, `frete.tracking_code`,
`shipping.tracking`, `shipping.tracking_code`, then the top-level
`rastreamento`, `tracking`, `tracking_code` — returning the display form
of the first non-empty one; and whenever some nested candidate is
non-empty, rewriting any top-level alias leaves the result unchanged. -/
theorem extractTracking_candidate_order :
    (∀ o : J, extractTracking o = firstNonEmptyDisplay (specTrackingCandidates o)) ∧
    (∀ (ps : List (String × J)) (k : String) (v : J),
        (k = "rastreamento" ∨ k = "tracking" ∨ k = "tracking_code") →
        nestedTrackingPresent (jdict ps) = true →
        extractTracking (jdict (setAssoc ps k v)) = extractTracking (jdict ps)) := by
  refine ⟨fun o => extractTracking_as_display o, ?_⟩
  intro ps k v hk hnest
  have hkf : k ≠ "frete" := by rcases hk with h | h | h <;> subst h <;> decide
  have hks : k ≠ "shipping" := by rcases hk with h | h | h <;> subst h <;> decide
  have hgf : pyGet (jdict (setAssoc ps k v)) "frete" = pyGet (jdict ps) "frete" := by
    simp [pyGet, lookup_setAssoc_ne ps k "frete" v (Ne.symm hkf)]
  have hgs : pyGet (jdict (setAssoc ps k v)) "shipping" = pyGet (jdict ps) "shipping" := by
    simp [pyGet, lookup_setAssoc_ne ps k "shipping" v (Ne.symm hks)]
  rw [extractTracking_as_display, extractTracking_as_display]
  have hcands : (specTrackingCandidates (jdict (setAssoc ps k v))).take 5
      = (specTrackingCandidates (jdict ps)).take 5 := by
    simp [specTrackingCandidates, hgf, hgs]
  unfold firstNonEmptyDisplay
  have hfind : (specTrackingCandidates (jdict (setAssoc ps k v))).find? truthy
      = (specTrackingCandidates (jdict ps)).find? truthy := by
    have hsplit1 : specTrackingCandidates (jdict (setAssoc ps k v))
        = (specTrackingCandidates (jdict (setAssoc ps k v))).take 5 ++
            [pyGet (jdict (setAssoc ps k v)) "rastreamento",
             pyGet (jdict (setAssoc ps k v)) "tracking",
             pyGet (jdict (setAssoc ps k v)) "tracking_code"] := rfl
    have hsplit2 : specTrackingCandidates (jdict ps)
        = (specTrackingCandidates (jdict ps)).take 5 ++
            [pyGet (jdict ps) "rastreamento", pyGet (jdict ps) "tracking",
             pyGet (jdict ps) "tracking_code"] := rfl
    rw [hsplit1, hsplit2, hcands]
    exact find?_truthy_append _ _ _ hnest
  rw [hfind]

/-- Witness for C9: with `frete.rastreio` present, overwriting the
top-level `tracking` alias does not change the extracted code. -/
theorem extractTracking_candidate_order_witness :
    nestedTrackingPresent (jdict [("frete", jdict [("rastreio", jstr "AB1")]),
        ("tracking", jstr "ZZ9")]) = true ∧
    extractTracking (jdict (setAssoc [("frete", jdict [("rastreio", jstr "AB1")]),
        ("tracking", jstr "ZZ9")] "tracking" (jstr "XX0")))
      = extractTracking (jdict [("frete", jdict [("rastreio", jstr "AB1")]),
        ("tracking", jstr "ZZ9")]) :=
  ⟨by decide,
   extractTracking_candidate_order.2 [("frete", jdict [("rastreio", jstr "AB1")]),
      ("tracking", jstr "ZZ9")] "tracking" (jstr "XX0") (Or.inr (Or.inl rfl)) (by decide)⟩

/-- Spec-side filter for the amended dedup statement: the records that
pass the date-window filter and carry a truthy id. -/
def survives (dfrom dto : Date) (o : J) : Bool :=
  !dateExcludedB dfrom dto o && truthy (pyGet o "id")

/-- Spec-side first-occurrence-per-id selection: keep each record whose
id has not been seen before, in order. -/
def keepFirstById (seen : List J) : List J → List J
  | [] => []
  | o :: rest =>
      let i := pyGet o "id"
      if seen.contains i then keepFirstById seen rest
      else o :: keepFirstById (i :: seen) rest

/-- The set of seen ids after running `keepFirstById`. -/
def seenAfter (seen : List J) : List J → List J
  | [] => seen
  | o :: rest =>
      let i := pyGet o "id"
      if seen.contains i then seenAfter seen rest
      else seenAfter (i :: seen) rest

theorem addRows_spec (dfrom dto : Date) :
    ∀ (items : List J) (st : AggSt),
      addRows dfrom dto st items =
        ⟨st.rows ++ (keepFirstById st.seen (items.filter (survives dfrom dto))).map orderRow,
         seenAfter st.seen (items.filter (survives dfrom dto))⟩ := by
  intro items
  induction items with
  | nil =>
      intro st
      simp [addRows, keepFirstById, seenAfter]
  | cons o rest ih =>
      intro st
      show addRows dfrom dto (addRowsStep dfrom dto st o) rest = _
      rw [ih]
      by_cases hd : dateExcludedB dfrom dto o = true
      · have hs : survives dfrom dto o = false := by simp [survives, hd]
        simp [addRowsStep, hd, List.filter_cons, hs]
      · have hdf : dateExcludedB dfrom dto o = false := by simpa using hd
        by_cases hid : truthy (pyGet o "id") = true
        · have hs : survives dfrom dto o = true := by simp [survives, hdf, hid]
          by_cases hseen : pyGet o "id" ∈ st.seen
          · simp [addRowsStep, hdf, hid, List.filter_cons, hs, keepFirstById, seenAfter, hseen]
          · simp [addRowsStep, hdf, hid, List.filter_cons, hs, keepFirstById, seenAfter, hseen]
        · have hidf : truthy (pyGet o "id") = false := by simpa using hid
          have hs : survives dfrom dto o = false := by simp [survives, hidf]
          simp [addRowsStep, hdf, hidf, List.filter_cons, hs]

theorem containsJ_iff (l : List J) (a : J) : l.contains a = true ↔ a ∈ l :=
  List.elem_iff

theorem keepFirstById_ids (l : List J) :
    ∀ seen : List J,
      ((keepFirstById seen l).map (fun o => pyGet o "id")).Nodup ∧
      (∀ i ∈ (keepFirstById seen l).map (fun o => pyGet o "id"), i ∉ seen) := by
  induction l with
  | nil => intro seen; simp [keepFirstById]
  | cons o rest ih =>
      intro seen
      by_cases hseen : pyGet o "id" ∈ seen
      · simpa [keepFirstById, hseen] using ih seen
      · have hc : ¬(seen.contains (pyGet o "id") = true) := fun h => hseen ((containsJ_iff _ _).mp h)
        have h2 := ih (pyGet o "id" :: seen)
        simp only [keepFirstById, if_neg hc, List.map_cons, List.nodup_cons, List.mem_cons]
        refine ⟨⟨?_, h2.1⟩, ?_⟩
        · intro hmem
          exact (h2.2 _ hmem) (List.mem_cons_self _ _)
        · intro i hi
          rcases hi with rfl | hi
          · exact hseen
          · intro hcon
            exact (h2.2 i hi) (List.mem_cons_of_mem _ hcon)

theorem keepFirstById_sublist (l : List J) :
    ∀ seen : List J, ∀ o ∈ keepFirstById seen l, o ∈ l := by
  induction l with
  | nil => intro seen o h; simp [keepFirstById] at h
  | cons x rest ih =>
      intro seen o h
      by_cases hseen : pyGet x "id" ∈ seen
      · rw [show keepFirstById seen (x :: rest) = keepFirstById seen rest from by
          simp [keepFirstById, hseen]] at h
        exact List.mem_cons_of_mem _ (ih seen o h)
      · rw [show keepFirstById seen (x :: rest)
              = x :: keepFirstById (pyGet x "id" :: seen) rest from by
          simp [keepFirstById, hseen]] at h
        rcases List.mem_cons.mp h with rfl | h2
        · exact List.mem_cons_self _ _
        · exact List.mem_cons_of_mem _ (ih _ o h2)

/-- C1 (amended).  In a date-window resolution, the produced row list is
exactly the first-occurrence-per-id selection over the fetched objects
that pass the date-window filter and carry a truthy id, mapped through
row construction — so no two rows share an id, an object with a missing
or empty id produces no row, and among the objects that survive the date
filter the first with a given id wins while later duplicates are
silently discarded.  (The claim as frozen omits the date-filter
qualification; see the counterexample.) -/
theorem addRows_dedup_firstSurvivorWins (dfrom dto : Date) (items : List J)
    (_hs : ∀ o ∈ items, rowSafe o = true) :
    (addRows dfrom dto ⟨[], []⟩ items).rows
        = (keepFirstById [] (items.filter (survives dfrom dto))).map orderRow ∧
    ((addRows dfrom dto ⟨[], []⟩ items).rows.map ORow.orderId).Nodup := by
  have hmain := addRows_spec dfrom dto items ⟨[], []⟩
  constructor
  · rw [hmain]
    simp
  · rw [hmain]
    show ((List.map orderRow _).map ORow.orderId).Nodup
    rw [List.map_map]
    exact (keepFirstById_ids (items.filter (survives dfrom dto)) []).1

/-- Witness for C1: two in-window objects sharing id 1 produce one row
(the first), an id-less object produces none. -/
theorem addRows_dedup_witness :
    (∀ o ∈ [jdict [("id", jint 1), ("data", jstr "2025-09-10")],
            jdict [("id", jint 1), ("data", jstr "2025-09-15")],
            jdict [("data", jstr "2025-09-16")]], rowSafe o = true) ∧
    (addRows ⟨2025, 9, 1⟩ ⟨2025, 9, 30⟩ ⟨[], []⟩
        [jdict [("id", jint 1), ("data", jstr "2025-09-10")],
         jdict [("id", jint 1), ("data", jstr "2025-09-15")],
         jdict [("data", jstr "2025-09-16")]]).rows
      = (keepFirstById [] ([jdict [("id", jint 1), ("data", jstr "2025-09-10")],
           jdict [("id", jint 1), ("data", jstr "2025-09-15")],
           jdict [("data", jstr "2025-09-16")]].filter
             (survives ⟨2025, 9, 1⟩ ⟨2025, 9, 30⟩))).map orderRow ∧
    (addRows ⟨2025, 9, 1⟩ ⟨2025, 9, 30⟩ ⟨[], []⟩
        [jdict [("id", jint 1), ("data", jstr "2025-09-10")],
         jdict [("id", jint 1), ("data", jstr "2025-09-15")],
         jdict [("data", jstr "2025-09-16")]]).rows
      = [orderRow (jdict [("id", jint 1), ("data", jstr "2025-09-10")])] :=
  ⟨by decide,
   (addRows_dedup_firstSurvivorWins ⟨2025, 9, 1⟩ ⟨2025, 9, 30⟩ _ (by decide)).1,
   by decide⟩

/-- Counterexample to C1 as stated: with window 2025-09-01..2025-09-30,
the first object with id 1 is dated 2025-08-01 and is excluded by the
date filter, so it produces no row, and the *later* object with the same
id produces the (single) row — the first occurrence in fetch order does
not win and the later duplicate is not discarded. -/
theorem firstOccurrenceCex :
    (addRows ⟨2025, 9, 1⟩ ⟨2025, 9, 30⟩ ⟨[], []⟩
        [jdict [("id", jint 1), ("data", jstr "2025-08-01")],
         jdict [("id", jint 1), ("data", jstr "2025-09-15")]]).rows
      = [orderRow (jdict [("id", jint 1), ("data", jstr "2025-09-15")])] ∧
    orderRow (jdict [("id", jint 1), ("data", jstr "2025-09-15")])
      ≠ orderRow (jdict [("id", jint 1), ("data", jstr "2025-08-01")]) := by
  decide

theorem survives_date_bounds (dfrom dto : Date) (o : J) (hs : survives dfrom dto o = true) :
    ∀ d, (createdAny o).2 = some d → dle dfrom d = true ∧ dle d dto = true := by
  intro d hd
  have hex : dateExcludedB dfrom dto o = false := by
    simp only [survives, Bool.and_eq_true] at hs
    simpa using hs.1
  unfold dateExcludedB at hex
  rw [hd] at hex
  simp only [Bool.or_eq_false_iff] at hex
  exact ⟨by simp [dle, hex.1], by simp [dle, hex.2]⟩

/-- C3.  Every row a date-window resolution produces comes from a fetched
record whose creation date, when it parses, lies inside the inclusive
window; and a record whose creation date fails to parse is never skipped
by the date filter — it is appended whenever its id is present and
unseen. -/
theorem addRows_dateWindow_filter (dfrom dto : Date) (items : List J) (st : AggSt)
    (_hs : ∀ o ∈ items, rowSafe o = true) :
    (∀ r ∈ (addRows dfrom dto st items).rows, r ∈ st.rows ∨
        ∃ o ∈ items, r = orderRow o ∧
          ∀ d, (createdAny o).2 = some d → dle dfrom d = true ∧ dle d dto = true) ∧
    (∀ o : J, (createdAny o).2 = none → truthy (pyGet o "id") = true →
        st.seen.contains (pyGet o "id") = false →
        (addRowsStep dfrom dto st o).rows = st.rows ++ [orderRow o]) := by
  constructor
  · intro r hr
    rw [addRows_spec dfrom dto items st] at hr
    rcases List.mem_append.mp hr with hr | hr
    · exact Or.inl hr
    · right
      rcases List.mem_map.mp hr with ⟨o, ho, rfl⟩
      have hoF := keepFirstById_sublist _ _ _ ho
      have hsur := List.of_mem_filter hoF
      exact ⟨o, List.mem_of_mem_filter hoF, rfl, survives_date_bounds dfrom dto o hsur⟩
  · intro o hnone hid hseen
    have hex : dateExcludedB dfrom dto o = false := by
      unfold dateExcludedB
      rw [hnone]
    have hseen2 : pyGet o "id" ∉ st.seen := fun hm =>
      Bool.false_ne_true (hseen.symm.trans ((containsJ_iff _ _).mpr hm))
    simp [addRowsStep, hex, hid, hseen2]

/-- Witness for C3 at a two-record page: an in-window record and a
record with an unparsable date. -/
theorem addRows_dateWindow_witness :
    (∀ r ∈ (addRows ⟨2025, 9, 1⟩ ⟨2025, 9, 30⟩ ⟨[], []⟩
        [jdict [("id", jint 1), ("data", jstr "2025-09-10")]]).rows,
      r ∈ ([] : List ORow) ∨
        ∃ o ∈ [jdict [("id", jint 1), ("data", jstr "2025-09-10")]], r = orderRow o ∧
          ∀ d, (createdAny o).2 = some d →
            dle ⟨2025, 9, 1⟩ d = true ∧ dle d ⟨2025, 9, 30⟩ = true) ∧
    (addRowsStep ⟨2025, 9, 1⟩ ⟨2025, 9, 30⟩ ⟨[], []⟩
        (jdict [("id", jint 2), ("data", jstr "soon")])).rows
      = [] ++ [orderRow (jdict [("id", jint 2), ("data", jstr "soon")])] :=
  ⟨(addRows_dateWindow_filter ⟨2025, 9, 1⟩ ⟨2025, 9, 30⟩
      [jdict [("id", jint 1), ("data", jstr "2025-09-10")]] ⟨[], []⟩ (by decide)).1,
   (addRows_dateWindow_filter ⟨2025, 9, 1⟩ ⟨2025, 9, 30⟩
      [jdict [("id", jint 1), ("data", jstr "2025-09-10")]] ⟨[], []⟩ (by decide)).2
     (jdict [("id", jint 2), ("data", jstr "soon")]) (by decide) (by decide) (by decide)⟩

theorem tryCand_some (fetch : Fetch) (c : Cand) (pg : Pg) (t : List Params)
    (h : tryCand fetch c = (some pg, t)) :
    pg = ⟨c.mode, c.keys, c.size⟩ ∧
      ((c.mode = .modePage ∨ c.mode = .modeOffset) → trialsDiffer fetch c) := by
  cases hm : c.mode with
  | modePage =>
      rw [tryCand, hm] at h
      by_cases hd : trialsDiffer fetch c
      · rw [if_pos hd] at h
        injection h with h1 _
        injection h1 with h1
        exact ⟨h1.symm, fun _ => hd⟩
      · rw [if_neg hd] at h
        injection h with h1 _
        cases h1
  | modeOffset =>
      rw [tryCand, hm] at h
      by_cases hd : trialsDiffer fetch c
      · rw [if_pos hd] at h
        injection h with h1 _
        injection h1 with h1
        exact ⟨h1.symm, fun _ => hd⟩
      · rw [if_neg hd] at h
        injection h with h1 _
        cases h1
  | modeLimitOnly =>
      rw [tryCand, hm] at h
      by_cases hl : (fetchList fetch (candParams1 c)).status = 200 ∧
          (fetchList fetch (candParams1 c)).items ≠ []
      · rw [if_pos hl] at h
        injection h with h1 _
        injection h1 with h1
        refine ⟨h1.symm, fun hc => ?_⟩
        rcases hc with hc | hc <;> exact absurd hc (by decide)
      · rw [if_neg hl] at h
        injection h with h1 _
        cases h1
  | modeNone =>
      rw [tryCand, hm] at h
      injection h with h1 _
      cases h1

theorem tryCands_some (fetch : Fetch) :
    ∀ (cs : List Cand) (pg : Pg) (t : List Params),
      tryCands fetch cs = (some pg, t) →
      ∃ c ∈ cs, pg = ⟨c.mode, c.keys, c.size⟩ ∧
        ((c.mode = .modePage ∨ c.mode = .modeOffset) → trialsDiffer fetch c) := by
  intro cs
  induction cs with
  | nil => intro pg t h; rw [tryCands] at h; injection h with h1 _; cases h1
  | cons c rest ih =>
      intro pg t h
      rw [tryCands] at h
      cases hc : tryCand fetch c with
      | mk r tc =>
          cases r with
          | some pg2 =>
              rw [hc] at h
              injection h with h1 h2
              injection h1 with h1
              subst h1
              exact ⟨c, List.mem_cons_self _ _, tryCand_some fetch c pg2 tc hc⟩
          | none =>
              rw [hc] at h
              cases hrest : tryCands fetch rest with
              | mk r2 t2 =>
                  rw [hrest] at h
                  injection h with h1 _
                  subst h1
                  obtain ⟨c2, hmem, hrest2⟩ := ih pg t2 hrest
                  exact ⟨c2, List.mem_cons_of_mem _ hmem, hrest2⟩

theorem discoverPagination_eq (fetch : Fetch) :
    discoverPagination fetch =
      if (fetchList fetch []).status = 200 ∧ (fetchList fetch []).items ≠ [] then
        (if (fetchList fetch [("limit", 1000)]).status = 200 ∧
            (fetchList fetch []).items.length < (fetchList fetch [("limit", 1000)]).items.length
         then (⟨.modeLimitOnly, [("limit", "limit")], 1000⟩, [[], [("limit", 1000)]])
         else (⟨.modeNone, [], (fetchList fetch []).items.length⟩, [[], [("limit", 1000)]]))
      else
        match tryCands fetch pagCandidates with
        | (some pg, t) => (pg, [] :: t)
        | (none, t) => (⟨.modeNone, [], 100⟩, [] :: t) := rfl

/-- C5 (amended).  The Discoverer reports a page- or offset-based
strategy only via some candidate of the table whose two trial fetches
both returned status 200 with non-empty lists and differing first
records (hence identical first records on every candidate can only give
`limit_only` or `none`); and when the initial unparameterized fetch
returns status 200 with a non-empty list, the result is `limit_only`
exactly when the `limit`-widened fetch returns status 200 with strictly
more records, and `none` (sized by the initial fetch) otherwise.  (The
claim as frozen omits the status-200 requirement on the widened fetch;
see the counterexample.) -/
theorem discoverPagination_classification (fetch : Fetch) :
    (((discoverPagination fetch).1.mode = .modePage ∨
        (discoverPagination fetch).1.mode = .modeOffset) →
      ∃ c ∈ pagCandidates, (discoverPagination fetch).1 = ⟨c.mode, c.keys, c.size⟩ ∧
        trialsDiffer fetch c) ∧
    ((fetchList fetch []).status = 200 → (fetchList fetch []).items ≠ [] →
      (((fetchList fetch [("limit", 1000)]).status = 200 ∧
          (fetchList fetch []).items.length < (fetchList fetch [("limit", 1000)]).items.length) →
        (discoverPagination fetch).1 = ⟨.modeLimitOnly, [("limit", "limit")], 1000⟩) ∧
      (¬((fetchList fetch [("limit", 1000)]).status = 200 ∧
          (fetchList fetch []).items.length < (fetchList fetch [("limit", 1000)]).items.length) →
        (discoverPagination fetch).1 = ⟨.modeNone, [], (fetchList fetch []).items.length⟩)) := by
  constructor
  · intro hmode
    rw [discoverPagination_eq] at hmode ⊢
    by_cases h0 : (fetchList fetch []).status = 200 ∧ (fetchList fetch []).items ≠ []
    · rw [if_pos h0] at hmode
      by_cases h1 : (fetchList fetch [("limit", 1000)]).status = 200 ∧
          (fetchList fetch []).items.length < (fetchList fetch [("limit", 1000)]).items.length
      · rw [if_pos h1] at hmode
        have hm2 : PgMode.modeLimitOnly = PgMode.modePage ∨
            PgMode.modeLimitOnly = PgMode.modeOffset := hmode
        exact absurd hm2 (by decide)
      · rw [if_neg h1] at hmode
        have hm2 : PgMode.modeNone = PgMode.modePage ∨
            PgMode.modeNone = PgMode.modeOffset := hmode
        exact absurd hm2 (by decide)
    · rw [if_neg h0] at hmode ⊢
      cases htc : tryCands fetch pagCandidates with
      | mk r t =>
          cases r with
          | some pg =>
              rw [htc] at hmode
              have hmode2 : pg.mode = PgMode.modePage ∨ pg.mode = PgMode.modeOffset := hmode
              obtain ⟨c, hc, heq, himp⟩ := tryCands_some fetch pagCandidates pg t htc
              have hmode3 : c.mode = PgMode.modePage ∨ c.mode = PgMode.modeOffset := by
                rw [heq] at hmode2
                exact hmode2
              exact ⟨c, hc, heq, himp hmode3⟩
          | none =>
              rw [htc] at hmode
              have hm2 : PgMode.modeNone = PgMode.modePage ∨
                  PgMode.modeNone = PgMode.modeOffset := hmode
              exact absurd hm2 (by decide)
  · intro h200 hne
    constructor
    · intro h1
      rw [discoverPagination_eq, if_pos ⟨h200, hne⟩, if_pos h1]
    · intro h1
      rw [discoverPagination_eq, if_pos ⟨h200, hne⟩, if_neg h1]

/-- An oracle whose unparameterized fetch succeeds with one record and
whose `limit`-widened fetch returns strictly more records but with
status 500. -/
def widenFail500Fetch : Fetch := fun p =>
  if p = [] then (jdict [("data", jlist [jint 1])], 200)
  else if p = [("limit", 1000)] then (jdict [("data", jlist [jint 1, jint 2])], 500)
  else (jnull, 404)

/-- Counterexample to C5 as stated: the initial unparameterized fetch is
non-empty (status 200) and the limit-widened fetch returns strictly more
records, yet the Discoverer classifies `none`, not `LimitOnly`, because
the widened fetch's status is 500 and the code also requires status 200
on it. -/
theorem paginationLimitWiden_cex :
    (fetchList widenFail500Fetch []).status = 200 ∧
    (fetchList widenFail500Fetch []).items ≠ [] ∧
    (fetchList widenFail500Fetch []).items.length
      < (fetchList widenFail500Fetch [("limit", 1000)]).items.length ∧
    (discoverPagination widenFail500Fetch).1.mode = .modeNone ∧
    (discoverPagination widenFail500Fetch).1.mode ≠ .modeLimitOnly := by
  decide

/-- An oracle that paginates: the unparameterized fetch is empty, and the
first page-candidate's two trial pages return distinct records. -/
def pagedFetch : Fetch := fun p =>
  if p = [("page", 1), ("page_size", 200)] then (jdict [("data", jlist [jint 1])], 200)
  else if p = [("page", 2), ("page_size", 200)] then (jdict [("data", jlist [jint 2])], 200)
  else (jdict [("data", jlist [])], 200)

/-- An oracle that honours only a widening `limit` parameter. -/
def limitFetch : Fetch := fun p =>
  if p = [("limit", 1000)] then (jdict [("data", jlist [jint 1, jint 2])], 200)
  else (jdict [("data", jlist [jint 1])], 200)

/-- Witness for C5: a page-based classification through a concrete
candidate, and a `limit_only` classification from a widening fetch. -/
theorem discoverPagination_classification_witness :
    (∃ c ∈ pagCandidates, (discoverPagination pagedFetch).1 = ⟨c.mode, c.keys, c.size⟩ ∧
        trialsDiffer pagedFetch c) ∧
    (discoverPagination limitFetch).1 = ⟨.modeLimitOnly, [("limit", "limit")], 1000⟩ :=
  ⟨(discoverPagination_classification pagedFetch).1 (Or.inl (by decide)),
   ((discoverPagination_classification limitFetch).2 (by decide) (by decide)).1 (by decide)⟩

theorem fetchList_status (fetch : Fetch) (p : Params) :
    (fetchList fetch p).status = (fetch p).2 := by
  unfold fetchList
  rcases fetch p with ⟨js, st⟩
  cases js <;> dsimp only <;> try rfl
  split <;> rfl

theorem tryCand_none_of_non200 (fetch : Fetch) (hst : ∀ p, (fetch p).2 ≠ 200) (c : Cand) :
    (tryCand fetch c).1 = none := by
  have hnd : ¬ trialsDiffer fetch c := fun hd =>
    hst (candParams1 c) (by rw [← fetchList_status]; exact hd.1)
  have hnl : ¬((fetchList fetch (candParams1 c)).status = 200 ∧
      (fetchList fetch (candParams1 c)).items ≠ []) := fun hl =>
    hst (candParams1 c) (by rw [← fetchList_status]; exact hl.1)
  cases hm : c.mode
  · rw [tryCand, hm]
  · rw [tryCand, hm, if_neg hnl]
  · rw [tryCand, hm, if_neg hnd]
  · rw [tryCand, hm, if_neg hnd]

theorem tryCands_none_of_non200 (fetch : Fetch) (hst : ∀ p, (fetch p).2 ≠ 200) :
    ∀ cs : List Cand, (tryCands fetch cs).1 = none := by
  intro cs
  induction cs with
  | nil => rfl
  | cons c rest ih =>
      rw [tryCands]
      rcases h2 : tryCand fetch c with ⟨r, t⟩
      have hr : r = none := by
        have := tryCand_none_of_non200 fetch hst c
        rw [h2] at this
        exact this
      subst hr
      rcases h3 : tryCands fetch rest with ⟨r2, t2⟩
      have hr2 : r2 = none := by rw [h3] at ih; exact ih
      subst hr2
      simp [h3]

theorem discover_none_of_non200 (fetch : Fetch) (hst : ∀ p, (fetch p).2 ≠ 200) :
    (discoverPagination fetch).1 = ⟨.modeNone, [], 100⟩ := by
  rw [discoverPagination_eq]
  have h0 : ¬((fetchList fetch []).status = 200 ∧ (fetchList fetch []).items ≠ []) := fun h =>
    hst [] (by rw [← fetchList_status]; exact h.1)
  rw [if_neg h0]
  rcases h3 : tryCands fetch pagCandidates with ⟨r, t⟩
  have hr : r = none := by
    have := tryCands_none_of_non200 fetch hst pagCandidates
    rw [h3] at this
    exact this
  subst hr
  rfl

theorem find_none_of_non200 (fetch : Fetch) (hst : ∀ p, (fetch p).2 ≠ 200) (s : String)
    (maxPages : Nat) : (findOrderByTracking fetch s maxPages).1 = none := by
  unfold findOrderByTracking
  by_cases ht : normalizeTracking s = ""
  · rw [if_pos ht]
  · rw [if_neg ht]
    rcases hd2 : discoverPagination fetch with ⟨pg, t0⟩
    have hpg : pg = ⟨.modeNone, [], 100⟩ := by
      have := discover_none_of_non200 fetch hst
      rw [hd2] at this
      exact this
    rw [hpg]
    have hhit : hitFetch fetch [] = [] := by
      unfold hitFetch
      rw [if_neg (by rw [fetchList_status]; exact hst [])]
    dsimp only
    rw [hhit]
    rfl

theorem lookup_notFound_of_non200 (token : String) (fetch : Fetch)
    (hst : ∀ p, (fetch p).2 ≠ 200) (trk : String) (maxPages : Nat)
    (htrk : stripStr trk ≠ "") :
    (lookupByTracking token fetch trk maxPages).1 = .lok false none := by
  unfold lookupByTracking
  rw [if_neg htrk]
  rcases hfind : findOrderByTracking fetch (stripStr trk) maxPages with ⟨r, t⟩
  have hr : r = none := by
    have := find_none_of_non200 fetch hst (stripStr trk) maxPages
    rw [hfind] at this
    exact this
  subst hr
  rfl

theorem listOrdersScan_err_of_non200 (fetch : Fetch) (hst : ∀ p, (fetch p).2 ≠ 200)
    (dfrom dto : Date) (maxPages : Nat) :
    (listOrdersScan fetch dfrom dto maxPages).1
      = .oerr 502 ("HTTP " ++ toString (fetch []).2 ++ " em /order") := by
  unfold listOrdersScan
  rcases hd2 : discoverPagination fetch with ⟨pg, t0⟩
  have hpg : pg = ⟨.modeNone, [], 100⟩ := by
    have := discover_none_of_non200 fetch hst
    rw [hd2] at this
    exact this
  rw [hpg]
  dsimp only
  rw [if_pos (by rw [fetchList_status]; exact hst []), fetchList_status]

/-- C4 (amended).  When the upstream answers 401/403 to every request:
the date-window resolution terminates with the HTTP 502 error response
carrying the upstream status; the by-id shortcut returns a success-shaped
empty result (count 0, no rows); and the by-tracking lookup returns a
success-shaped `found = false` — only the date-window path propagates a
hard failure, the other two do not surface an authorization error.  (The
claim as frozen asserts a propagated auth error for all three paths; see
the counterexample.) -/
theorem authFailure_behavior (fetch : Fetch) (fetchDetail : String → J × Nat)
    (hf : ∀ p, (fetch p).2 = 401 ∨ (fetch p).2 = 403)
    (hd : ∀ s, (fetchDetail s).2 = 401 ∨ (fetchDetail s).2 = 403) :
    (∀ (token : String) (today : Date) (fromArg toArg : String) (maxPages : Nat), token ≠ "" →
      (listOrders token fetch fetchDetail today fromArg toArg "" maxPages).1
        = .oerr 502 ("HTTP " ++ toString (fetch []).2 ++ " em /order")) ∧
    (∀ (token : String) (today : Date) (fromArg toArg qArg : String) (maxPages : Nat),
      token ≠ "" → pyIsDigit (stripStr qArg) = true →
      ∃ dfrom dto, (listOrders token fetch fetchDetail today fromArg toArg qArg maxPages).1
        = .ook dfrom dto 0 []) ∧
    (∀ (token trk : String) (maxPages : Nat), stripStr trk ≠ "" →
      (lookupByTracking token fetch trk maxPages).1 = .lok false none) := by
  have hst : ∀ p, (fetch p).2 ≠ 200 := fun p => by
    rcases hf p with h | h <;> simp [h]
  refine ⟨?_, ?_, ?_⟩
  · intro token today fromArg toArg maxPages htok
    unfold listOrders
    rw [if_neg htok]
    exact listOrdersScan_err_of_non200 fetch hst _ _ maxPages
  · intro token today fromArg toArg qArg maxPages htok hq
    unfold listOrders
    rw [if_neg htok]
    refine ⟨(dt fromArg).getD (subDays today 30), (dt toArg).getD today, ?_⟩
    simp only [hq, eq_self_iff_true, if_true]
    unfold listOrdersById
    rcases hdet : fetchDetail (stripStr qArg) with ⟨js, st⟩
    have hne : ¬(st = 200) := by
      rcases hd (stripStr qArg) with h | h <;> rw [hdet] at h <;> simp at h <;> simp [h]
    dsimp only
    rw [if_neg hne]
  · intro token trk maxPages htrk
    exact lookup_notFound_of_non200 token fetch hst trk maxPages htrk

/-- An oracle that answers 403 to every request. -/
def auth403Fetch : Fetch := fun _ => (jnull, 403)

/-- The 403-everywhere detail-endpoint oracle. -/
def auth403Detail : String → J × Nat := fun _ => (jnull, 403)

/-- Counterexample to C4 as stated: with a valid configuration and an
upstream that answers 403 to every request combination, the by-tracking
lookup and the by-id shortcut both terminate with success-shaped empty
results instead of a propagated authorization error. -/
theorem authFailure_lookup_cex :
    (auth403Fetch []).2 = 403 ∧
    (lookupByTracking "token-ok" auth403Fetch "AB123456789BR" 80).1 = .lok false none ∧
    (listOrders "token-ok" auth403Fetch auth403Detail ⟨2025, 10, 12⟩ "2025-09-01" "2025-09-30"
        "77" 50).1 = .ook ⟨2025, 9, 1⟩ ⟨2025, 9, 30⟩ 0 [] := by
  decide

/-- Witness for C4 (amended) at the all-403 oracle. -/
theorem authFailure_behavior_witness :
    (listOrders "token-ok" auth403Fetch auth403Detail ⟨2025, 10, 12⟩ "2025-09-01" "2025-09-30"
        "" 50).1 = .oerr 502 ("HTTP " ++ toString (auth403Fetch []).2 ++ " em /order") ∧
    (∃ dfrom dto, (listOrders "token-ok" auth403Fetch auth403Detail ⟨2025, 10, 12⟩ "2025-09-01"
        "2025-09-30" "77" 50).1 = .ook dfrom dto 0 []) ∧
    (lookupByTracking "token-ok" auth403Fetch "AB123456789BR" 80).1 = .lok false none :=
  ⟨(authFailure_behavior auth403Fetch auth403Detail (fun _ => Or.inr rfl)
      (fun _ => Or.inr rfl)).1 "token-ok" ⟨2025, 10, 12⟩ "2025-09-01" "2025-09-30" 50
      (by decide),
   (authFailure_behavior auth403Fetch auth403Detail (fun _ => Or.inr rfl)
      (fun _ => Or.inr rfl)).2.1 "token-ok" ⟨2025, 10, 12⟩ "2025-09-01" "2025-09-30" "77" 50
      (by decide) (by decide),
   (authFailure_behavior auth403Fetch auth403Detail (fun _ => Or.inr rfl)
      (fun _ => Or.inr rfl)).2.2 "token-ok" "AB123456789BR" 80 (by decide)⟩

theorem discover_trace_ne (fetch : Fetch) : (discoverPagination fetch).2 ≠ [] := by
  rw [discoverPagination_eq]
  split
  · split <;> simp
  · rcases h3 : tryCands fetch pagCandidates with ⟨r, t⟩
    cases r <;> simp

theorem find_trace_ne (fetch : Fetch) (s : String) (maxPages : Nat)
    (h : normalizeTracking s ≠ "") : (findOrderByTracking fetch s maxPages).2 ≠ [] := by
  unfold findOrderByTracking
  rw [if_neg h]
  rcases hd2 : discoverPagination fetch with ⟨pg, t0⟩
  have ht0 : t0 ≠ [] := by
    have := discover_trace_ne fetch
    rw [hd2] at this
    exact this
  dsimp only
  cases hm : pg.mode
  · simp
  · simp
  · rcases hfp : findByPage fetch (kget pg.keys "page") (kget pg.keys "size") pg.size
        (normalizeTracking s) maxPages 1 with ⟨r, t⟩
    simp [List.append_eq_nil, ht0]
  · rcases hfo : findByOffset fetch (kget pg.keys "offset") (kget pg.keys "limit") pg.size
        (normalizeTracking s) maxPages 0 with ⟨r, t⟩
    simp [List.append_eq_nil, ht0]

theorem lookup_trace_ne (token : String) (fetch : Fetch) (trk : String) (maxPages : Nat)
    (h1 : stripStr trk ≠ "") (h2 : normalizeTracking trk ≠ "") :
    (lookupByTracking token fetch trk maxPages).2 ≠ [] := by
  unfold lookupByTracking
  rw [if_neg h1]
  have h3 : normalizeTracking (stripStr trk) ≠ "" := by
    rw [normalizeTracking_strip]
    exact h2
  rcases hfind : findOrderByTracking fetch (stripStr trk) maxPages with ⟨r, t⟩
  have htne : t ≠ [] := by
    have := find_trace_ne fetch (stripStr trk) maxPages h3
    rw [hfind] at this
    exact this
  cases r with
  | none => exact htne
  | some o =>
      dsimp only
      split <;> exact htne

/-- C7 (amended).  With a missing credential the `/api/wbuy/orders`
handler (the date-window and by-id resolutions) fails immediately with
the configuration error and issues no upstream request; the
`/api/wbuy/lookup` handler, however, performs no credential check at
all — for any queryable tracking string it proceeds to issue upstream
requests whatever the token.  (The claim as frozen asserts the immediate
configuration failure for every resolution call; see the
counterexample.) -/
theorem missingToken_behavior :
    (∀ (fetch : Fetch) (fetchDetail : String → J × Nat) (today : Date)
        (fromArg toArg qArg : String) (maxPages : Nat),
      listOrders "" fetch fetchDetail today fromArg toArg qArg maxPages
        = (.oerr 500 "WBUY_TOKEN ausente", [])) ∧
    (∀ (token : String) (fetch : Fetch) (trk : String) (maxPages : Nat),
      stripStr trk ≠ "" → normalizeTracking trk ≠ "" →
      (lookupByTracking token fetch trk maxPages).2 ≠ []) := by
  constructor
  · intro fetch fetchDetail today fromArg toArg qArg maxPages
    unfold listOrders
    rw [if_pos rfl]
  · exact lookup_trace_ne

/-- Counterexample to C7 as stated: with the credential missing (empty
token), the by-tracking lookup does not fail with a configuration error —
it issues three upstream requests (discovery plus scan) and returns a
success-shaped not-found response. -/
theorem missingToken_lookup_cex :
    (lookupByTracking "" plainFetch "AB123456789BR" 80).1 = .lok false none ∧
    (lookupByTracking "" plainFetch "AB123456789BR" 80).2
      = [[], [("limit", 1000)], []] := by
  decide

/-- Witness for C7 (amended): the orders endpoint with empty token, and
the lookup issuing requests despite an empty token. -/
theorem missingToken_behavior_witness :
    listOrders "" plainFetch (fun _ => (jnull, 404)) ⟨2025, 10, 12⟩ "" "" "" 50
      = (.oerr 500 "WBUY_TOKEN ausente", []) ∧
    (lookupByTracking "" plainFetch "AB123456789BR" 80).2 ≠ [] :=
  ⟨missingToken_behavior.1 plainFetch (fun _ => (jnull, 404)) ⟨2025, 10, 12⟩ "" "" "" 50,
   missingToken_behavior.2 "" plainFetch "AB123456789BR" 80 (by decide) (by decide)⟩
